import Mathlib

/-!
Shallow embedding of the project provisioning and lifecycle core
(backend/src/services/project/project-service.ts and project-types.ts).

External collaborators (permission engine, licensing, crypto primitives,
DAL identifier generation, the nanoid and slugify packages) are supplied
as oracle values and functions inside an environment record `Env`; the
control flow, row contents and error behaviour of the service itself are
translated from the source.  Database writes are modelled on an explicit
state record `DBState`; the knex transaction combinator is modelled by
its semantics: an error result leaves the pre-transaction state.
-/

namespace Infisical

/-- Error taxonomy of the service, translated from the error classes the
source throws: CASL ForbiddenError (permission capability denial),
BadRequestError, ForbiddenRequestError, plain Error, and a constructor
for a storage-layer rejection of an individual DAL write. -/
inductive PErr
  | forbiddenPermission
  | badRequest (message : String)
  | forbiddenRequest (message : String)
  | internal (message : String)
  | dbFailure
deriving DecidableEq

/-- Decidable equality of Except results, used to evaluate concrete
runs of the embedded operations. -/
instance {e a : Type} [DecidableEq e] [DecidableEq a] : DecidableEq (Except e a) :=
  fun x y =>
    match x, y with
    | .ok v, .ok w =>
      if h : v = w then .isTrue (h ▸ rfl) else .isFalse (fun hc => h (Except.ok.inj hc))
    | .error u, .error t =>
      if h : u = t then .isTrue (h ▸ rfl) else .isFalse (fun hc => h (Except.error.inj hc))
    | .ok _, .error _ => .isFalse (fun hc => Except.noConfusion hc)
    | .error _, .ok _ => .isFalse (fun hc => Except.noConfusion hc)

/-- ActorType from services/auth/auth-type (values used by this service:
USER and IDENTITY; every other actor kind takes neither branch). -/
inductive ActorType
  | user
  | identity
  | service
deriving DecidableEq

/-- ProjectMembershipRole from the db schemas. -/
inductive ProjectMembershipRole
  | admin
  | member
  | custom
  | viewer
  | noAccess
deriving DecidableEq

/-- ProjectVersion from the db schemas. -/
inductive ProjectVersion
  | v1
  | v2
deriving DecidableEq

/-- Permissions are opaque to this service; it only passes them to the
oracle isAtLeastAsPrivileged.  A numeric carrier keeps them concrete. -/
abbrev Permission := Nat

structure OrgRow where
  id : String
deriving DecidableEq

/-- Plan facts from licenseService.getPlan. -/
structure Plan where
  workspaceLimit : Option Nat
  workspacesUsed : Nat
deriving DecidableEq

/-- Output of createSecretBlindIndex (lib/crypto, external). -/
structure BlindIndexCipher where
  keyEncoding : String
  iv : String
  tag : String
  algorithm : String
  ciphertext : String
deriving DecidableEq

/-- Output of infisicalSymmetricEncypt (lib/crypto/encryption, external). -/
structure SymEnc where
  iv : String
  tag : String
  ciphertext : String
  encoding : String
  algorithm : String
deriving DecidableEq

/-- Result of orgService.addGhostUser: the synthetic custodian account
with its keypair; plainPrivateKey exists only inside the transaction. -/
structure GhostUser where
  userId : String
  publicKey : String
  plainPrivateKey : String
deriving DecidableEq

/-- Row of userDAL.findUserEncKeyByUserId. -/
structure UserEncKey where
  id : String
  publicKey : String
deriving DecidableEq

/-- Row of identityOrgMembershipDAL.findOne; the role columns record the
organization-level role of the identity itself (not read by the create
path, which queries the baseline Member role instead). -/
structure IdentityOrgMembershipRow where
  id : String
  role : String
  roleId : Option String
deriving DecidableEq

/-- Project row. -/
structure Project where
  id : String
  name : String
  orgId : String
  slug : String
  version : ProjectVersion
  pitVersionLimit : Nat
  autoCapitalization : Option Bool := none
  upgradeStatus : Option String := none
deriving DecidableEq

structure ProjectMembership where
  id : String
  userId : String
  projectId : String
deriving DecidableEq

structure ProjectUserMembershipRole where
  projectMembershipId : String
  role : ProjectMembershipRole
deriving DecidableEq

structure SecretBlindIndexRow where
  projectId : String
  keyEncoding : String
  saltIV : String
  saltTag : String
  algorithm : String
  encryptedSaltCipherText : String
deriving DecidableEq

structure ProjectEnvRow where
  id : String
  name : String
  slug : String
  projectId : String
  position : Nat
deriving DecidableEq

structure FolderRow where
  name : String
  envId : String
  version : Nat
deriving DecidableEq

structure ProjectKeyRow where
  projectId : String
  receiverId : String
  encryptedKey : String
  nonce : String
  senderId : String
deriving DecidableEq

structure ProjectBotRow where
  name : String
  projectId : String
  tag : String
  iv : String
  encryptedProjectKey : String
  encryptedProjectKeyNonce : String
  encryptedPrivateKey : String
  isActive : Bool
  publicKey : String
  senderId : String
  algorithm : String
  keyEncoding : String
deriving DecidableEq

structure IdentityProjectMembership where
  id : String
  identityId : String
  projectId : String
deriving DecidableEq

structure IdentityProjectMembershipRole where
  projectMembershipId : String
  role : ProjectMembershipRole
  customRoleId : Option String
deriving DecidableEq

/-- Database state touched by the embedded operations, one list per
table, plus the keystore cache-invalidation log (keys passed to
keyStore.deleteItem, in call order). -/
structure DBState where
  projects : List Project := []
  projectMemberships : List ProjectMembership := []
  projectUserMembershipRoles : List ProjectUserMembershipRole := []
  secretBlindIndexes : List SecretBlindIndexRow := []
  projectEnvs : List ProjectEnvRow := []
  folders : List FolderRow := []
  projectKeys : List ProjectKeyRow := []
  projectBots : List ProjectBotRow := []
  identityProjectMemberships : List IdentityProjectMembership := []
  identityProjectMembershipRoles : List IdentityProjectMembershipRole := []
  ghostUsers : List String := []
  cacheDeletes : List String := []
deriving DecidableEq

/-- Result of permissionService.getOrgPermission: the actor permission
and the org membership row (only its id is used downstream). -/
structure OrgPerm where
  permission : Permission
  membershipId : String
deriving DecidableEq

/-- Modelled from the spec: the external slugify package
(@sindresorhus/slugify, not part of src) produces "a normalized,
lowercase, hyphenated form" of its input.  Characters a-z and 0-9 are
kept, A-Z are lowercased, every other character becomes a hyphen. -/
def slugNormChar (c : Char) : Char :=
  if (97 ≤ c.toNat ∧ c.toNat ≤ 122) ∨ (48 ≤ c.toNat ∧ c.toNat ≤ 57) then c
  else if 65 ≤ c.toNat ∧ c.toNat ≤ 90 then c.toLower
  else '-'

/-- Collapses every run of consecutive hyphens to a single hyphen. -/
def slugCollapse : List Char → List Char
  | [] => []
  | c :: cs =>
    let r := slugCollapse cs
    if c = '-' then
      match r with
      | '-' :: _ => r
      | _ => c :: r
    else c :: r

/-- Drops leading and trailing hyphens. -/
def slugTrim (l : List Char) : List Char :=
  ((l.dropWhile (fun c => c == '-')).reverse.dropWhile (fun c => c == '-')).reverse

/-- Modelled from the spec: slugify, composed from the pieces above. -/
def slugify (s : String) : String :=
  String.mk (slugTrim (slugCollapse (s.toList.map slugNormChar)))

/-- Wrapped-key pair returned by createProjectKey. -/
structure ProjectKeyPair where
  key : String
  iv : String
deriving DecidableEq

/-- Member descriptor passed to assignWorkspaceKeysToMembers. -/
structure WsKeyMember where
  userPublicKey : String
  orgMembershipId : String
  projectMembershipRole : ProjectMembershipRole
deriving DecidableEq

/-- Per-member result of assignWorkspaceKeysToMembers. -/
structure WsKeyAssignment where
  orgMembershipId : String
  projectRole : ProjectMembershipRole
  workspaceEncryptedKey : String
  workspaceEncryptedNonce : String
deriving DecidableEq

/-- Modelled from the spec: createProjectKey of project-fns.ts is not
under src.  Spec 4.2 generateProjectKey: produces a fresh root key and
immediately wraps it under the custodian public key; the cryptographic
wrapping itself is the external KeyCustodyEngine, abstracted by the
oracle argument applied to the custodian public and private key. -/
def createProjectKey (oracle : String → String → String × String)
    (publicKey privateKey : String) : ProjectKeyPair :=
  let r := oracle publicKey privateKey
  { key := r.1, iv := r.2 }

/-- Modelled from the spec: assignWorkspaceKeysToMembers of
project-fns.ts is not under src.  Spec 4.2 wrapForRecipient: unwraps the
root key with the sender private key and envelope-encrypts it for each
member public key, keeping the requested project role of the member; the
cryptographic wrapping is abstracted by the oracle argument applied to
the decrypt-key row, the sender private key and the member public key. -/
def assignWorkspaceKeysToMembers
    (oracle : ProjectKeyRow → String → String → String × String)
    (decryptKey : ProjectKeyRow) (userPrivateKey : String)
    (members : List WsKeyMember) : List WsKeyAssignment :=
  members.map (fun m =>
    let wrapped := oracle decryptKey userPrivateKey m.userPublicKey
    { orgMembershipId := m.orgMembershipId,
      projectRole := m.projectMembershipRole,
      workspaceEncryptedKey := wrapped.1,
      workspaceEncryptedNonce := wrapped.2 })

/-- Capability actions of the project-level permission checks used by
the embedded operations. -/
inductive ProjAction
  | delete
  | edit
  | read
deriving DecidableEq

/-- Capability subjects of the project-level permission checks. -/
inductive ProjSub
  | project
  | settings
  | secrets
deriving DecidableEq

/-- Result of permissionService.getProjectPermission: the capability
decision function backing ForbiddenError.throwUnlessCan and the hasRole
predicate. -/
structure ProjPerm where
  can : ProjAction → ProjSub → Bool
  hasRole : ProjectMembershipRole → Bool

/-- Environment of one createProject call: every fact supplied by the
external collaborators (org lookup, permission engine, licensing,
crypto, ghost-user provisioning, identifier generation) together with a
success flag per DAL write, modelling that any individual storage write
inside the transaction can be rejected by the database. -/
structure Env where
  org : Option OrgRow
  getOrgPermission : Except PErr OrgPerm
  canCreateWorkspace : Bool
  blindIndex : BlindIndexCipher
  getPlan : Plan
  addGhostUser : Except PErr GhostUser
  nanoid4 : String
  newProjectId : String
  projectCreateOk : Bool
  ghostMembershipId : String
  ghostMembershipOk : Bool
  ghostRoleOk : Bool
  blindIndexOk : Bool
  envIds : Nat → String
  envInsertOk : Bool
  folderInsertOk : Bool
  createProjectKeyOracle : String → String → String × String
  ghostKeyOk : Bool
  infisicalSymmetricEncypt : String → SymEnc
  botOk : Bool
  findUserEncKey : Option UserEncKey
  wrapKeyOracle : ProjectKeyRow → String → String → String × String
  userMembershipId : String
  userMembershipOk : Bool
  userRoleOk : Bool
  userKeyOk : Bool
  identityOrgMembership : Option IdentityOrgMembershipRow
  memberRolePermission : Permission
  memberCustomRole : Option String
  isAtLeastAsPrivileged : Permission → Permission → Bool
  identityMembershipId : String
  identityMembershipOk : Bool
  identityRoleOk : Bool

/-- Input of createProject (TCreateProjectDTO). -/
structure CreateInput where
  actor : ActorType
  actorId : String
  actorOrgId : Option String
  actorAuthMethod : String
  workspaceName : String
  slug : Option String
deriving DecidableEq

/-- Result row of createProject: the project spread together with its
environment list and the duplicated id field. -/
structure CreateResult where
  project : Project
  environments : List ProjectEnvRow
  mongoCompatId : String
deriving DecidableEq

/-- ROOT_FOLDER_NAME from secret-folder-dal (constant). -/
def ROOT_FOLDER_NAME : String := "root"

/-- DEFAULT_PROJECT_ENVS from project-service.ts. -/
def DEFAULT_PROJECT_ENVS : List (String × String) :=
  [("Development", "dev"), ("Staging", "staging"), ("Production", "prod")]

/-- Rows inserted by projectEnvDAL.insertMany: DEFAULT_PROJECT_ENVS with
position i + 1 and storage-generated identifiers. -/
def defaultEnvRows (env : Env) (projectId : String) : List ProjectEnvRow :=
  DEFAULT_PROJECT_ENVS.enum.map (fun p =>
    { id := env.envIds p.1, name := p.2.1, slug := p.2.2,
      projectId := projectId, position := p.1 + 1 })

/-- Slug column value: projectSlug || slugify of name-nanoid; the JS
logical-or treats an empty supplied slug as absent. -/
def projectSlugValue (env : Env) (inp : CreateInput) : String :=
  match inp.slug with
  | some ps =>
    if ps = "" then slugify (inp.workspaceName ++ "-" ++ env.nanoid4) else ps
  | none => slugify (inp.workspaceName ++ "-" ++ env.nanoid4)

/-- Key lookup of projectKeyDAL.findLatestProjectKey: the most recently
inserted key row of the given receiver in the given project. -/
def findLatestProjectKey (userId projectId : String) (s : DBState) :
    Option ProjectKeyRow :=
  (s.projectKeys.filter
    (fun k => k.receiverId == userId && k.projectId == projectId)).getLast?

/-- Template-literal cache key passed to keyStore.deleteItem. -/
def cachePlanKey (actorOrgId : Option String) : String :=
  "infisical-cloud-plan-" ++ (match actorOrgId with
    | some o => o
    | none => "undefined")

/-- Quota predicate of the plan-limit guard: workspaceLimit not null and
workspacesUsed at or above it. -/
def quotaReached (p : Plan) : Bool :=
  match p.workspaceLimit with
  | some lim => decide (lim ≤ p.workspacesUsed)
  | none => false

/-- Project row produced by a successful step 2 of the transaction. -/
def coreProject (env : Env) (inp : CreateInput) (organization : OrgRow) : Project :=
  { id := env.newProjectId, name := inp.workspaceName,
    orgId := organization.id, slug := projectSlugValue env inp,
    version := .v2, pitVersionLimit := 10 }

/-- Ghost project-key row produced by step 6 of the transaction. -/
def ghostKeyRowOf (env : Env) (g : GhostUser) (projectId : String) : ProjectKeyRow :=
  let pk := createProjectKey env.createProjectKeyOracle g.publicKey g.plainPrivateKey
  { projectId := projectId, receiverId := g.userId,
    encryptedKey := pk.key, nonce := pk.iv, senderId := g.userId }

/-- Bot row produced by step 7 of the transaction. -/
def botRowOf (env : Env) (g : GhostUser) (projectId : String) : ProjectBotRow :=
  let pk := createProjectKey env.createProjectKeyOracle g.publicKey g.plainPrivateKey
  let enc := env.infisicalSymmetricEncypt g.plainPrivateKey
  { name := "Infisical Bot (Ghost)", projectId := projectId,
    tag := enc.tag, iv := enc.iv, encryptedProjectKey := pk.key,
    encryptedProjectKeyNonce := pk.iv, encryptedPrivateKey := enc.ciphertext,
    isActive := true, publicKey := g.publicKey, senderId := g.userId,
    algorithm := enc.algorithm, keyEncoding := enc.encoding }

/-- Blind-index row persisted by step 4 of the transaction. -/
def blindIndexRowOf (env : Env) (projectId : String) : SecretBlindIndexRow :=
  { projectId := projectId, keyEncoding := env.blindIndex.keyEncoding,
    saltIV := env.blindIndex.iv, saltTag := env.blindIndex.tag,
    algorithm := env.blindIndex.algorithm,
    encryptedSaltCipherText := env.blindIndex.ciphertext }

/-- Steps 1 to 7 of the provisioning transaction: ghost account, project
row, ghost membership and Admin role, blind index, default environments
and root folders, ghost project key, bot record, and the integrity
lookup of the latest ghost key. -/
def txCore (env : Env) (inp : CreateInput) (organization : OrgRow)
    (s : DBState) :
    Except PErr (DBState × GhostUser × Project × List ProjectEnvRow × ProjectKeyRow) :=
  match env.addGhostUser with
  | .error e => .error e
  | .ok ghostUser =>
  let s1 : DBState := { s with ghostUsers := s.ghostUsers ++ [ghostUser.userId] }
  if env.projectCreateOk = false then .error .dbFailure else
  let project := coreProject env inp organization
  let s2 : DBState := { s1 with projects := s1.projects ++ [project] }
  if env.ghostMembershipOk = false then .error .dbFailure else
  let s3 : DBState := { s2 with projectMemberships := s2.projectMemberships ++
    [{ id := env.ghostMembershipId, userId := ghostUser.userId,
       projectId := project.id }] }
  if env.ghostRoleOk = false then .error .dbFailure else
  let s4 : DBState := { s3 with projectUserMembershipRoles := s3.projectUserMembershipRoles ++
    [{ projectMembershipId := env.ghostMembershipId, role := .admin }] }
  if env.blindIndexOk = false then .error .dbFailure else
  let s5 : DBState := { s4 with secretBlindIndexes := s4.secretBlindIndexes ++
    [blindIndexRowOf env project.id] }
  if env.envInsertOk = false then .error .dbFailure else
  let envRows := defaultEnvRows env project.id
  let s6 : DBState := { s5 with projectEnvs := s5.projectEnvs ++ envRows }
  if env.folderInsertOk = false then .error .dbFailure else
  let s7 : DBState := { s6 with folders := s6.folders ++ envRows.map (fun e =>
    { name := ROOT_FOLDER_NAME, envId := e.id, version := 1 }) }
  if env.ghostKeyOk = false then .error .dbFailure else
  let s8 : DBState := { s7 with projectKeys := s7.projectKeys ++
    [ghostKeyRowOf env ghostUser project.id] }
  if env.botOk = false then .error .dbFailure else
  let s9 : DBState := { s8 with projectBots := s8.projectBots ++
    [botRowOf env ghostUser project.id] }
  match findLatestProjectKey ghostUser.userId project.id s9 with
  | none => .error (.internal "Latest key not found for user")
  | some latestKey => .ok (s9, ghostUser, project, envRows, latestKey)

/-- Step 8 of the provisioning transaction: the branch on the
initiating-actor kind.  The user branch looks up the actor public key,
wraps the root key via assignWorkspaceKeysToMembers and persists the
actor membership, role and project key; the identity branch verifies
the identity org membership, enforces isAtLeastAsPrivileged of the
actor permission against the baseline Member role permission, and
persists the identity membership and role.  Every other actor kind
persists nothing further. -/
def txActorBranch (env : Env) (inp : CreateInput) (orgPerm : OrgPerm)
    (ghostUser : GhostUser) (project : Project) (latestKey : ProjectKeyRow)
    (s : DBState) : Except PErr DBState :=
  match inp.actor with
  | .user =>
    match env.findUserEncKey with
    | none => .error (.internal "User not found")
    | some user =>
    match assignWorkspaceKeysToMembers env.wrapKeyOracle latestKey
        ghostUser.plainPrivateKey
        [{ userPublicKey := user.publicKey,
           orgMembershipId := orgPerm.membershipId,
           projectMembershipRole := .admin }] with
    | [] => .error (.internal "projectAdmin is undefined")
    | projectAdmin :: _ =>
    if env.userMembershipOk = false then .error .dbFailure else
    let sA : DBState := { s with projectMemberships := s.projectMemberships ++
      [{ id := env.userMembershipId, userId := user.id,
         projectId := project.id }] }
    if env.userRoleOk = false then .error .dbFailure else
    let sB : DBState := { sA with projectUserMembershipRoles := sA.projectUserMembershipRoles ++
      [{ projectMembershipId := env.userMembershipId,
         role := projectAdmin.projectRole }] }
    if env.userKeyOk = false then .error .dbFailure else
    .ok { sB with projectKeys := sB.projectKeys ++
      [{ projectId := project.id, receiverId := user.id,
         encryptedKey := projectAdmin.workspaceEncryptedKey,
         nonce := projectAdmin.workspaceEncryptedNonce,
         senderId := ghostUser.userId }] }
  | .identity =>
    match env.identityOrgMembership with
    | none => .error (.badRequest ("Failed to find identity with id " ++ inp.actorId))
    | some _iom =>
    if env.isAtLeastAsPrivileged orgPerm.permission env.memberRolePermission = false then
      .error (.forbiddenRequest "Failed to add identity to project with more privileged role")
    else
    let isCustomRole := env.memberCustomRole.isSome
    if env.identityMembershipOk = false then .error .dbFailure else
    let sA : DBState := { s with identityProjectMemberships := s.identityProjectMemberships ++
      [{ id := env.identityMembershipId, identityId := inp.actorId,
         projectId := project.id }] }
    if env.identityRoleOk = false then .error .dbFailure else
    .ok { sA with identityProjectMembershipRoles := sA.identityProjectMembershipRoles ++
      [{ projectMembershipId := env.identityMembershipId,
         role := if isCustomRole then .custom else .admin,
         customRoleId := env.memberCustomRole }] }
  | .service => .ok s

/-- Body of the projectDAL.transaction callback of createProject. -/
def createProjectTx (env : Env) (inp : CreateInput) (organization : OrgRow)
    (orgPerm : OrgPerm) (s : DBState) : Except PErr (DBState × CreateResult) :=
  match txCore env inp organization s with
  | .error e => .error e
  | .ok (s1, ghostUser, project, envRows, latestKey) =>
  match txActorBranch env inp orgPerm ghostUser project latestKey s1 with
  | .error e => .error e
  | .ok s2 =>
  .ok (s2, { project := project, environments := envRows,
             mongoCompatId := project.id })

/-- Transaction commit plus the post-commit cache invalidation. -/
def createProjectCommit (env : Env) (inp : CreateInput) (organization : OrgRow)
    (orgPerm : OrgPerm) (s : DBState) : Except PErr CreateResult × DBState :=
  match createProjectTx env inp organization orgPerm s with
  | .error e => (.error e, s)
  | .ok (s2, res) =>
    (.ok res, { s2 with cacheDeletes := s2.cacheDeletes ++ [cachePlanKey inp.actorOrgId] })

/-- The createProject operation: org lookup, org permission, workspace
create capability, plan quota guard, then the provisioning transaction
and the cache invalidation.  An error anywhere leaves the state as it
was; the transaction combinator rolls back every write of a failed
attempt. -/
def createProject (env : Env) (inp : CreateInput) (s : DBState) :
    Except PErr CreateResult × DBState :=
  match env.org with
  | none => (.error (.internal "Cannot read properties of undefined (reading id)"), s)
  | some organization =>
  match env.getOrgPermission with
  | .error e => (.error e, s)
  | .ok orgPerm =>
  if env.canCreateWorkspace = false then (.error .forbiddenPermission, s) else
  if quotaReached env.getPlan then
    (.error (.badRequest "Failed to create workspace due to plan limit reached. Upgrade plan to add more workspaces."), s)
  else
  createProjectCommit env inp organization orgPerm s

/-- Filter of the by-id or by-slug project lookups (project-types.ts). -/
inductive Filter
  | byId (projectId : String)
  | bySlug (slug : String) (orgId : Option String)
deriving DecidableEq

/-- Lookup of projectDAL.findProjectByFilter. -/
def findProjectByFilter (f : Filter) (s : DBState) : Option Project :=
  match f with
  | .byId pid => s.projects.find? (fun p => p.id == pid)
  | .bySlug slug orgId =>
    s.projects.find? (fun p => p.slug == slug && some p.orgId == orgId)

/-- Lookup of projectDAL.findProjectBySlug. -/
def findProjectBySlug (slug : String) (orgId : Option String) (s : DBState) :
    Option Project :=
  s.projects.find? (fun p => p.slug == slug && some p.orgId == orgId)

/-- Lookup of projectMembershipDAL.findProjectGhostUser: the ghost user
bound to a membership of the project (the .catch of the source makes an
absent custodian a non-error). -/
def findProjectGhostUser (projectId : String) (s : DBState) : Option String :=
  (s.projectMemberships.find?
    (fun m => m.projectId == projectId && s.ghostUsers.contains m.userId)).map
    (fun m => m.userId)

/-- Environment of the project-scoped operations deleteProject and
updateVersionLimit: the project permission oracle plus per-write
success flags of the deletion transaction. -/
structure ProjectOpEnv where
  getProjectPermission : Except PErr ProjPerm
  deleteOk : Bool
  userDeleteOk : Bool

/-- Input of deleteProject (TDeleteProjectDTO). -/
structure DeleteInput where
  actor : ActorType
  actorId : String
  actorOrgId : Option String
  filter : Filter
deriving DecidableEq

/-- Body of the deletion transaction: delete the project row, then
best-effort delete the bound ghost user account. -/
def deleteProjectTx (env : ProjectOpEnv) (project : Project) (s : DBState) :
    Except PErr (DBState × Project) :=
  if env.deleteOk = false then .error .dbFailure else
  let s1 : DBState := { s with projects := s.projects.filter (fun p => !(p.id == project.id)) }
  match findProjectGhostUser project.id s with
  | some ghostId =>
    if env.userDeleteOk = false then .error .dbFailure else
    .ok ({ s1 with ghostUsers := s1.ghostUsers.filter (fun u => !(u == ghostId)) }, project)
  | none => .ok (s1, project)

/-- The deleteProject operation: lookup, project permission, Delete
Project capability, deletion transaction, cache invalidation. -/
def deleteProject (env : ProjectOpEnv) (inp : DeleteInput) (s : DBState) :
    Except PErr Project × DBState :=
  match findProjectByFilter inp.filter s with
  | none => (.error (.internal "Cannot read properties of undefined (reading id)"), s)
  | some project =>
  match env.getProjectPermission with
  | .error e => (.error e, s)
  | .ok perm =>
  if perm.can .delete .project = false then (.error .forbiddenPermission, s) else
  match deleteProjectTx env project s with
  | .error e => (.error e, s)
  | .ok (s2, delProject) =>
    (.ok delProject, { s2 with cacheDeletes := s2.cacheDeletes ++ [cachePlanKey inp.actorOrgId] })

/-- Input of updateVersionLimit (TUpdateProjectVersionLimitDTO). -/
structure UpdateVersionLimitInput where
  actor : ActorType
  actorId : String
  actorOrgId : Option String
  pitVersionLimit : Nat
  workspaceSlug : String
deriving DecidableEq

/-- The updateVersionLimit operation, translated statement by statement:
slug lookup (BadRequest when absent), project permission resolution,
then the explicit hasRole Admin gate, then the patch.  The source never
calls throwUnlessCan here: the role gate is the only check on top of
the permission resolution itself. -/
def updateVersionLimit (env : ProjectOpEnv) (inp : UpdateVersionLimitInput)
    (s : DBState) : Except PErr Project × DBState :=
  match findProjectBySlug inp.workspaceSlug inp.actorOrgId s with
  | none => (.error (.badRequest "Project not found"), s)
  | some project =>
  match env.getProjectPermission with
  | .error e => (.error e, s)
  | .ok perm =>
  if perm.hasRole .admin = false then
    (.error (.badRequest "Only admins are allowed to take this action"), s)
  else
    (.ok { project with pitVersionLimit := inp.pitVersionLimit },
     { s with projects := s.projects.map (fun p =>
         if p.id == project.id then { p with pitVersionLimit := inp.pitVersionLimit } else p) })

/-- State after the successful steps 1 to 7 of the transaction. -/
def coreFinalState (env : Env) (inp : CreateInput) (organization : OrgRow)
    (g : GhostUser) (s : DBState) : DBState :=
  let project := coreProject env inp organization
  let envRows := defaultEnvRows env project.id
  { s with
    ghostUsers := s.ghostUsers ++ [g.userId],
    projects := s.projects ++ [project],
    projectMemberships := s.projectMemberships ++
      [{ id := env.ghostMembershipId, userId := g.userId, projectId := project.id }],
    projectUserMembershipRoles := s.projectUserMembershipRoles ++
      [{ projectMembershipId := env.ghostMembershipId, role := .admin }],
    secretBlindIndexes := s.secretBlindIndexes ++ [blindIndexRowOf env project.id],
    projectEnvs := s.projectEnvs ++ envRows,
    folders := s.folders ++ envRows.map (fun e =>
      { name := ROOT_FOLDER_NAME, envId := e.id, version := 1 }),
    projectKeys := s.projectKeys ++ [ghostKeyRowOf env g project.id],
    projectBots := s.projectBots ++ [botRowOf env g project.id] }

/-- Key assignment computed for the initiating human actor (the single
member passed to assignWorkspaceKeysToMembers, with Admin role). -/
def userAdminAssignment (env : Env) (orgPerm : OrgPerm) (latestKey : ProjectKeyRow)
    (g : GhostUser) (u : UserEncKey) : WsKeyAssignment :=
  { orgMembershipId := orgPerm.membershipId, projectRole := .admin,
    workspaceEncryptedKey := (env.wrapKeyOracle latestKey g.plainPrivateKey u.publicKey).1,
    workspaceEncryptedNonce := (env.wrapKeyOracle latestKey g.plainPrivateKey u.publicKey).2 }

/-- Rows appended by the human-actor branch of the transaction. -/
def userBranchState (env : Env) (orgPerm : OrgPerm) (g : GhostUser) (project : Project)
    (latestKey : ProjectKeyRow) (u : UserEncKey) (s : DBState) : DBState :=
  let pa := userAdminAssignment env orgPerm latestKey g u
  { s with
    projectMemberships := s.projectMemberships ++
      [{ id := env.userMembershipId, userId := u.id, projectId := project.id }],
    projectUserMembershipRoles := s.projectUserMembershipRoles ++
      [{ projectMembershipId := env.userMembershipId, role := pa.projectRole }],
    projectKeys := s.projectKeys ++
      [{ projectId := project.id, receiverId := u.id,
         encryptedKey := pa.workspaceEncryptedKey,
         nonce := pa.workspaceEncryptedNonce, senderId := g.userId }] }

/-- Rows appended by the identity-actor branch of the transaction. -/
def identityBranchState (env : Env) (inp : CreateInput) (project : Project)
    (s : DBState) : DBState :=
  { s with
    identityProjectMemberships := s.identityProjectMemberships ++
      [{ id := env.identityMembershipId, identityId := inp.actorId,
         projectId := project.id }],
    identityProjectMembershipRoles := s.identityProjectMembershipRoles ++
      [{ projectMembershipId := env.identityMembershipId,
         role := if env.memberCustomRole.isSome then .custom else .admin,
         customRoleId := env.memberCustomRole }] }

/-- Concrete environment used by the evaluation theorems: every
collaborator succeeds, the actor is a member of org1, the plan has
room, and the identifier oracles return fixed strings. -/
def envOk : Env :=
  { org := some { id := "org1" },
    getOrgPermission := .ok { permission := 5, membershipId := "om1" },
    canCreateWorkspace := true,
    blindIndex := { keyEncoding := "base64", iv := "biv", tag := "btag",
                    algorithm := "aes-256-gcm", ciphertext := "bct" },
    getPlan := { workspaceLimit := some 3, workspacesUsed := 1 },
    addGhostUser := .ok { userId := "ghost1", publicKey := "gpub",
                          plainPrivateKey := "gpriv" },
    nanoid4 := "ab12",
    newProjectId := "proj1",
    projectCreateOk := true,
    ghostMembershipId := "gm1",
    ghostMembershipOk := true,
    ghostRoleOk := true,
    blindIndexOk := true,
    envIds := fun i => "env" ++ toString i,
    envInsertOk := true,
    folderInsertOk := true,
    createProjectKeyOracle := fun _ _ => ("epk", "epkiv"),
    ghostKeyOk := true,
    infisicalSymmetricEncypt := fun _ =>
      { iv := "siv", tag := "stag", ciphertext := "sct",
        encoding := "utf8", algorithm := "aes-256-gcm" },
    botOk := true,
    findUserEncKey := some { id := "user1", publicKey := "upub" },
    wrapKeyOracle := fun _ _ _ => ("wk", "wn"),
    userMembershipId := "um1",
    userMembershipOk := true,
    userRoleOk := true,
    userKeyOk := true,
    identityOrgMembership := some { id := "iom1", role := "member", roleId := none },
    memberRolePermission := 3,
    memberCustomRole := none,
    isAtLeastAsPrivileged := fun a b => decide (b ≤ a),
    identityMembershipId := "im1",
    identityMembershipOk := true,
    identityRoleOk := true }

/-- Concrete human-actor create request. -/
def inpUser : CreateInput :=
  { actor := .user, actorId := "user1", actorOrgId := some "org1",
    actorAuthMethod := "jwt", workspaceName := "Acme", slug := none }

/-- Concrete machine-identity create request. -/
def inpIdentity : CreateInput :=
  { actor := .identity, actorId := "mid1", actorOrgId := some "org1",
    actorAuthMethod := "identity-token", workspaceName := "Acme", slug := none }

/-- Empty database. -/
def dbEmpty : DBState := {}

/-- Key row persisted for the human actor in step 8. -/
def userKeyRowOf (env : Env) (orgPerm : OrgPerm) (g : GhostUser) (u : UserEncKey)
    (projectId : String) (latestKey : ProjectKeyRow) : ProjectKeyRow :=
  { projectId := projectId, receiverId := u.id,
    encryptedKey := (userAdminAssignment env orgPerm latestKey g u).workspaceEncryptedKey,
    nonce := (userAdminAssignment env orgPerm latestKey g u).workspaceEncryptedNonce,
    senderId := g.userId }

/-- Environment whose privilege oracle denies every comparison. -/
def envC1 : Env := { envOk with isAtLeastAsPrivileged := fun _ _ => false }

/-- Environment whose plan is exhausted (limit 1, used 1). -/
def envC2 : Env := { envOk with getPlan := { workspaceLimit := some 1, workspacesUsed := 1 } }

/-- Environment in which the blind-index insert is rejected by storage. -/
def envC3fail : Env := { envOk with blindIndexOk := false }

/-- Environment in which the actor has no registered public key row. -/
def envC9none : Env := { envOk with findUserEncKey := none }

/-- Environment in which the identity itself holds a custom organization
role while the baseline Member lookup returns no custom role. -/
def iomCustom : IdentityOrgMembershipRow :=
  { id := "iom1", role := "my-custom-role", roleId := some "crid1" }

def envC6 : Env := { envOk with identityOrgMembership := some iomCustom }

/-- Create request supplying an empty slug. -/
def inpEmptySlug : CreateInput := { inpUser with slug := some "" }

/-- Pre-existing project row used by the update and delete scenarios. -/
def projAcme : Project :=
  { id := "proj1", name := "Acme", orgId := "org1", slug := "acme",
    version := .v2, pitVersionLimit := 10 }

/-- Database holding just projAcme. -/
def dbWithProject : DBState := { projects := [projAcme] }

/-- Project permission granting no capability at all but carrying the
Admin role. -/
def permNoCaps : ProjPerm :=
  { can := fun _ _ => false, hasRole := fun r => r == .admin }

/-- Project permission granting every capability but no role. -/
def permNonAdmin : ProjPerm :=
  { can := fun _ _ => true, hasRole := fun _ => false }

/-- Fully granting project permission. -/
def permAll : ProjPerm :=
  { can := fun _ _ => true, hasRole := fun _ => true }

/-- Operation environments wrapping the three permissions. -/
def opEnvNoCaps : ProjectOpEnv :=
  { getProjectPermission := .ok permNoCaps, deleteOk := true, userDeleteOk := true }

def opEnvNonAdmin : ProjectOpEnv :=
  { getProjectPermission := .ok permNonAdmin, deleteOk := true, userDeleteOk := true }

def opEnvAll : ProjectOpEnv :=
  { getProjectPermission := .ok permAll, deleteOk := true, userDeleteOk := true }

/-- Version-limit update request for projAcme. -/
def uvlInp : UpdateVersionLimitInput :=
  { actor := .user, actorId := "user1", actorOrgId := some "org1",
    pitVersionLimit := 5, workspaceSlug := "acme" }

/-- Deletion request for projAcme. -/
def delInp : DeleteInput :=
  { actor := .user, actorId := "user1", actorOrgId := some "org1",
    filter := .byId "proj1" }

/-- Getting the last element of a list ending in a kept element. -/
theorem filter_getLast?_concat {α : Type} (l : List α) (a : α) (p : α → Bool)
    (hp : p a = true) : ((l ++ [a]).filter p).getLast? = some a := by
  simp [List.filter_append, hp, List.getLast?_concat]

/-- Characterization of a successful txCore run. -/
theorem txCore_ok_shape (env : Env) (inp : CreateInput) (organization : OrgRow)
    (s s1 : DBState) (g : GhostUser) (project : Project)
    (envRows : List ProjectEnvRow) (latestKey : ProjectKeyRow)
    (h : txCore env inp organization s = .ok (s1, g, project, envRows, latestKey)) :
    env.addGhostUser = .ok g ∧
    project = coreProject env inp organization ∧
    envRows = defaultEnvRows env (coreProject env inp organization).id ∧
    latestKey = ghostKeyRowOf env g (coreProject env inp organization).id ∧
    s1 = coreFinalState env inp organization g s := by
  unfold txCore at h
  cases hGhost : env.addGhostUser with
  | error e => rw [hGhost] at h; exact Except.noConfusion h
  | ok ghostUser =>
  rw [hGhost] at h
  dsimp only at h
  split at h
  · exact Except.noConfusion h
  split at h
  · exact Except.noConfusion h
  split at h
  · exact Except.noConfusion h
  split at h
  · exact Except.noConfusion h
  split at h
  · exact Except.noConfusion h
  split at h
  · exact Except.noConfusion h
  split at h
  · exact Except.noConfusion h
  split at h
  · exact Except.noConfusion h
  split at h
  · exact Except.noConfusion h
  rename_i x gk hFind
  injection h with h
  rw [Prod.mk.injEq, Prod.mk.injEq, Prod.mk.injEq, Prod.mk.injEq] at h
  obtain ⟨hs1, hg2, hproj, hrows, hlast⟩ := h
  subst hs1 hg2 hproj hrows hlast
  unfold findLatestProjectKey at hFind
  dsimp only at hFind
  rw [filter_getLast?_concat _ _ _ (by simp [ghostKeyRowOf])] at hFind
  injection hFind with hFind
  exact ⟨rfl, rfl, rfl, hFind.symm, rfl⟩

/-- Computation of a fully successful txCore run. -/
theorem txCore_succeeds (env : Env) (inp : CreateInput) (organization : OrgRow)
    (s : DBState) (g : GhostUser) (hGhost : env.addGhostUser = .ok g)
    (f1 : env.projectCreateOk = true) (f2 : env.ghostMembershipOk = true)
    (f3 : env.ghostRoleOk = true) (f4 : env.blindIndexOk = true)
    (f5 : env.envInsertOk = true) (f6 : env.folderInsertOk = true)
    (f7 : env.ghostKeyOk = true) (f8 : env.botOk = true) :
    txCore env inp organization s = .ok (coreFinalState env inp organization g s, g,
      coreProject env inp organization,
      defaultEnvRows env (coreProject env inp organization).id,
      ghostKeyRowOf env g (coreProject env inp organization).id) := by
  unfold txCore
  rw [hGhost]
  dsimp only
  simp only [f1, f2, f3, f4, f5, f6, f7, f8, Bool.true_eq_false, if_false]
  unfold findLatestProjectKey
  dsimp only
  rw [filter_getLast?_concat s.projectKeys
    (ghostKeyRowOf env g (coreProject env inp organization).id) _ (by simp [ghostKeyRowOf])]
  rfl

/-- Characterization of a successful human-actor branch. -/
theorem txActorBranch_user_shape (env : Env) (inp : CreateInput) (orgPerm : OrgPerm)
    (g : GhostUser) (project : Project) (latestKey : ProjectKeyRow) (s s2 : DBState)
    (hactor : inp.actor = .user)
    (h : txActorBranch env inp orgPerm g project latestKey s = .ok s2) :
    ∃ u, env.findUserEncKey = some u ∧
      s2 = userBranchState env orgPerm g project latestKey u s := by
  unfold txActorBranch at h
  rw [hactor] at h
  dsimp only at h
  cases hu : env.findUserEncKey with
  | none => rw [hu] at h; exact Except.noConfusion h
  | some u =>
  rw [hu] at h
  simp only [assignWorkspaceKeysToMembers, List.map] at h
  split at h
  · exact Except.noConfusion h
  split at h
  · exact Except.noConfusion h
  split at h
  · exact Except.noConfusion h
  injection h with h
  exact ⟨u, rfl, h.symm⟩

/-- Characterization of a successful identity-actor branch. -/
theorem txActorBranch_identity_shape (env : Env) (inp : CreateInput) (orgPerm : OrgPerm)
    (g : GhostUser) (project : Project) (latestKey : ProjectKeyRow) (s s2 : DBState)
    (hactor : inp.actor = .identity)
    (h : txActorBranch env inp orgPerm g project latestKey s = .ok s2) :
    ∃ m, env.identityOrgMembership = some m ∧
      env.isAtLeastAsPrivileged orgPerm.permission env.memberRolePermission = true ∧
      s2 = identityBranchState env inp project s := by
  unfold txActorBranch at h
  rw [hactor] at h
  dsimp only at h
  cases hm : env.identityOrgMembership with
  | none => rw [hm] at h; exact Except.noConfusion h
  | some m =>
  rw [hm] at h
  dsimp only at h
  split at h
  · exact Except.noConfusion h
  rename_i hpriv
  split at h
  · exact Except.noConfusion h
  split at h
  · exact Except.noConfusion h
  injection h with h
  refine ⟨m, rfl, ?_, h.symm⟩
  cases hx : env.isAtLeastAsPrivileged orgPerm.permission env.memberRolePermission
  · exact absurd hx hpriv
  · rfl

/-- Characterization of a successful service-actor branch. -/
theorem txActorBranch_service_shape (env : Env) (inp : CreateInput) (orgPerm : OrgPerm)
    (g : GhostUser) (project : Project) (latestKey : ProjectKeyRow) (s s2 : DBState)
    (hactor : inp.actor = .service)
    (h : txActorBranch env inp orgPerm g project latestKey s = .ok s2) : s2 = s := by
  unfold txActorBranch at h
  rw [hactor] at h
  injection h with h
  exact h.symm

/-- Denial computation of the identity branch when the privilege
comparison fails. -/
theorem txActorBranch_identity_forbidden (env : Env) (inp : CreateInput)
    (orgPerm : OrgPerm) (g : GhostUser) (project : Project)
    (latestKey : ProjectKeyRow) (s : DBState) (m : IdentityOrgMembershipRow)
    (hactor : inp.actor = .identity)
    (hm : env.identityOrgMembership = some m)
    (hpriv : env.isAtLeastAsPrivileged orgPerm.permission env.memberRolePermission = false) :
    txActorBranch env inp orgPerm g project latestKey s =
      .error (.forbiddenRequest "Failed to add identity to project with more privileged role") := by
  unfold txActorBranch
  rw [hactor]
  dsimp only
  rw [hm]
  dsimp only
  rw [hpriv, if_pos rfl]

/-- Decomposition of a successful transaction body. -/
theorem createProjectTx_ok_elim (env : Env) (inp : CreateInput)
    (organization : OrgRow) (orgPerm : OrgPerm) (s s2 : DBState) (res : CreateResult)
    (h : createProjectTx env inp organization orgPerm s = .ok (s2, res)) :
    ∃ g, env.addGhostUser = .ok g ∧
      res = { project := coreProject env inp organization,
              environments := defaultEnvRows env (coreProject env inp organization).id,
              mongoCompatId := (coreProject env inp organization).id } ∧
      txActorBranch env inp orgPerm g (coreProject env inp organization)
        (ghostKeyRowOf env g (coreProject env inp organization).id)
        (coreFinalState env inp organization g s) = .ok s2 := by
  unfold createProjectTx at h
  cases ht : txCore env inp organization s with
  | error e => rw [ht] at h; exact Except.noConfusion h
  | ok out =>
  obtain ⟨s1, g, project, envRows, latestKey⟩ := out
  obtain ⟨hg, hproj, hrows, hlast, hs1⟩ :=
    txCore_ok_shape env inp organization s s1 g project envRows latestKey ht
  subst hproj hrows hlast hs1
  rw [ht] at h
  dsimp only at h
  cases hb : txActorBranch env inp orgPerm g (coreProject env inp organization)
      (ghostKeyRowOf env g (coreProject env inp organization).id)
      (coreFinalState env inp organization g s) with
  | error e => rw [hb] at h; exact Except.noConfusion h
  | ok s3 =>
  rw [hb] at h
  dsimp only at h
  injection h with h
  rw [Prod.mk.injEq] at h
  obtain ⟨h1, h2⟩ := h
  subst h1 h2
  exact ⟨g, hg, rfl, hb⟩

/-- Top-level case analysis of createProject: either an error with the
state untouched, or the full success decomposition. -/
theorem createProject_run (env : Env) (inp : CreateInput) (s : DBState) :
    (∃ e, createProject env inp s = (.error e, s)) ∨
    (∃ organization orgPerm s2 res,
      env.org = some organization ∧ env.getOrgPermission = .ok orgPerm ∧
      env.canCreateWorkspace = true ∧ quotaReached env.getPlan = false ∧
      createProjectTx env inp organization orgPerm s = .ok (s2, res) ∧
      createProject env inp s =
        (.ok res, { s2 with cacheDeletes := s2.cacheDeletes ++ [cachePlanKey inp.actorOrgId] })) := by
  unfold createProject createProjectCommit
  cases ho : env.org with
  | none => exact .inl ⟨_, rfl⟩
  | some organization =>
  cases hp : env.getOrgPermission with
  | error e => exact .inl ⟨e, rfl⟩
  | ok orgPerm =>
  cases hc : env.canCreateWorkspace with
  | false => exact .inl ⟨.forbiddenPermission, by dsimp only; rw [if_pos rfl]⟩
  | true =>
  dsimp only
  rw [if_neg (by decide)]
  cases hq : quotaReached env.getPlan with
  | true => exact .inl ⟨_, by rw [if_pos rfl]⟩
  | false =>
  rw [if_neg (by decide)]
  cases ht : createProjectTx env inp organization orgPerm s with
  | error e => exact .inl ⟨e, rfl⟩
  | ok p =>
  obtain ⟨s2, res⟩ := p
  exact .inr ⟨organization, orgPerm, s2, res, rfl, rfl, rfl, rfl, ht, rfl⟩

/-- Cache log preservation through a successful transaction body. -/
theorem createProjectTx_cache (env : Env) (inp : CreateInput) (organization : OrgRow)
    (orgPerm : OrgPerm) (s s2 : DBState) (res : CreateResult)
    (h : createProjectTx env inp organization orgPerm s = .ok (s2, res)) :
    s2.cacheDeletes = s.cacheDeletes := by
  obtain ⟨g, hg, hres, hb⟩ := createProjectTx_ok_elim env inp organization orgPerm s s2 res h
  cases hactor : inp.actor with
  | user =>
    obtain ⟨u, hu, hs2⟩ := txActorBranch_user_shape env inp orgPerm g _ _ _ s2 hactor hb
    subst hs2; rfl
  | identity =>
    obtain ⟨m, hm, hpriv, hs2⟩ := txActorBranch_identity_shape env inp orgPerm g _ _ _ s2 hactor hb
    subst hs2; rfl
  | service =>
    have hs2 := txActorBranch_service_shape env inp orgPerm g _ _ _ s2 hactor hb
    subst hs2; rfl

/-- State preservation on any failed createProject. -/
theorem createProject_error_state (env : Env) (inp : CreateInput) (s : DBState)
    (h : (createProject env inp s).1.isOk = false) :
    (createProject env inp s).2 = s := by
  rcases createProject_run env inp s with ⟨e, he⟩ | ⟨o, op, s2, res, _, _, _, _, ht, hrun⟩
  · rw [he]
  · rw [hrun] at h; exact absurd h (by simp [Except.isOk, Except.toBool])

/-- Cache-invalidation log of createProject: one deletion of the plan
key on success, none on failure. -/
theorem createProject_cache (env : Env) (inp : CreateInput) (s : DBState) :
    ((createProject env inp s).2).cacheDeletes = s.cacheDeletes ++
      (if (createProject env inp s).1.isOk then [cachePlanKey inp.actorOrgId] else []) := by
  rcases createProject_run env inp s with ⟨e, he⟩ | ⟨o, op, s2, res, _, _, _, _, ht, hrun⟩
  · rw [he]; simp [Except.isOk, Except.toBool]
  · rw [hrun]
    dsimp only
    rw [createProjectTx_cache env inp o op s s2 res ht]
    simp [Except.isOk, Except.toBool]

/-- Cache log preservation through the deletion transaction. -/
theorem deleteProjectTx_cache (env : ProjectOpEnv) (project : Project)
    (s s2 : DBState) (dp : Project)
    (h : deleteProjectTx env project s = .ok (s2, dp)) :
    s2.cacheDeletes = s.cacheDeletes := by
  unfold deleteProjectTx at h
  split at h
  · exact Except.noConfusion h
  split at h
  · split at h
    · exact Except.noConfusion h
    injection h with h
    rw [Prod.mk.injEq] at h
    obtain ⟨h1, h2⟩ := h
    subst h1
    rfl
  · injection h with h
    rw [Prod.mk.injEq] at h
    obtain ⟨h1, h2⟩ := h
    subst h1
    rfl

/-- Top-level case analysis of deleteProject. -/
theorem deleteProject_run (env : ProjectOpEnv) (inp : DeleteInput) (s : DBState) :
    (∃ e, deleteProject env inp s = (.error e, s)) ∨
    (∃ project s2 dp,
      findProjectByFilter inp.filter s = some project ∧
      deleteProjectTx env project s = .ok (s2, dp) ∧
      deleteProject env inp s =
        (.ok dp, { s2 with cacheDeletes := s2.cacheDeletes ++ [cachePlanKey inp.actorOrgId] })) := by
  unfold deleteProject
  cases hf : findProjectByFilter inp.filter s with
  | none => exact .inl ⟨_, rfl⟩
  | some project =>
  dsimp only
  cases hp : env.getProjectPermission with
  | error e => exact .inl ⟨e, rfl⟩
  | ok perm =>
  dsimp only
  cases hc : perm.can .delete .project with
  | false => exact .inl ⟨_, by rw [if_pos rfl]⟩
  | true =>
  rw [if_neg (by decide)]
  cases ht : deleteProjectTx env project s with
  | error e => exact .inl ⟨e, rfl⟩
  | ok p =>
  obtain ⟨s2, dp⟩ := p
  exact .inr ⟨project, s2, dp, rfl, ht, rfl⟩

/-- Cache-invalidation log of deleteProject: one deletion of the plan
key on success, none on failure. -/
theorem deleteProject_cache (env : ProjectOpEnv) (inp : DeleteInput) (s : DBState) :
    ((deleteProject env inp s).2).cacheDeletes = s.cacheDeletes ++
      (if (deleteProject env inp s).1.isOk then [cachePlanKey inp.actorOrgId] else []) := by
  rcases deleteProject_run env inp s with ⟨e, he⟩ | ⟨project, s2, dp, hf, ht, hrun⟩
  · rw [he]; simp [Except.isOk, Except.toBool]
  · rw [hrun]
    dsimp only
    rw [deleteProjectTx_cache env project s s2 dp ht]
    simp [Except.isOk, Except.toBool]

/-- C1: for a createProject call by a machine-identity actor that
reaches the privilege gate (organization found, actor permission
resolved, workspace-create capability granted, quota not reached, every
earlier provisioning step accepted, identity org membership present),
a failing isAtLeastAsPrivileged comparison of the actor permission
against the baseline Member role permission makes the whole operation
return the privilege-escalation ForbiddenRequest error with the state
exactly as before: no Project row or any other row is persisted. -/
theorem c1_machine_privilege_escalation_denied
    (env : Env) (inp : CreateInput) (s : DBState)
    (o : OrgRow) (op : OrgPerm) (g : GhostUser) (m : IdentityOrgMembershipRow)
    (hactor : inp.actor = .identity)
    (ho : env.org = some o) (hp : env.getOrgPermission = .ok op)
    (hc : env.canCreateWorkspace = true) (hq : quotaReached env.getPlan = false)
    (hg : env.addGhostUser = .ok g)
    (f1 : env.projectCreateOk = true) (f2 : env.ghostMembershipOk = true)
    (f3 : env.ghostRoleOk = true) (f4 : env.blindIndexOk = true)
    (f5 : env.envInsertOk = true) (f6 : env.folderInsertOk = true)
    (f7 : env.ghostKeyOk = true) (f8 : env.botOk = true)
    (hm : env.identityOrgMembership = some m)
    (hpriv : env.isAtLeastAsPrivileged op.permission env.memberRolePermission = false) :
    createProject env inp s =
      (.error (.forbiddenRequest "Failed to add identity to project with more privileged role"), s) := by
  have htx : createProjectTx env inp o op s =
      .error (.forbiddenRequest "Failed to add identity to project with more privileged role") := by
    unfold createProjectTx
    rw [txCore_succeeds env inp o s g hg f1 f2 f3 f4 f5 f6 f7 f8]
    dsimp only
    rw [txActorBranch_identity_forbidden env inp op g (coreProject env inp o)
      (ghostKeyRowOf env g (coreProject env inp o).id)
      (coreFinalState env inp o g s) m hactor hm hpriv]
  unfold createProject createProjectCommit
  rw [ho]
  dsimp only
  rw [hp]
  dsimp only
  rw [hc, if_neg (by decide), hq, if_neg (by decide), htx]

/-- Witness for C1: a concrete identity-actor run with a denying
privilege oracle ends in the ForbiddenRequest error and leaves the
empty database empty. -/
theorem c1_witness :
    createProject envC1 inpIdentity dbEmpty =
      (.error (.forbiddenRequest "Failed to add identity to project with more privileged role"),
       dbEmpty) :=
  c1_machine_privilege_escalation_denied envC1 inpIdentity dbEmpty
    { id := "org1" } { permission := 5, membershipId := "om1" }
    { userId := "ghost1", publicKey := "gpub", plainPrivateKey := "gpriv" }
    { id := "iom1", role := "member", roleId := none }
    rfl rfl rfl rfl (by decide) rfl rfl rfl rfl rfl rfl rfl rfl rfl rfl rfl

/-- C2: when the organization plan carries a workspace limit and the
used count has reached it, createProject fails with the plan-limit
BadRequest error and the state is exactly the pre-call state, whatever
the transaction collaborators would have done: the guard runs before
the provisioning transaction opens. -/
theorem c2_quota_exceeded_short_circuits
    (env : Env) (inp : CreateInput) (s : DBState)
    (o : OrgRow) (op : OrgPerm) (lim : Nat)
    (ho : env.org = some o) (hp : env.getOrgPermission = .ok op)
    (hc : env.canCreateWorkspace = true)
    (hlim : env.getPlan.workspaceLimit = some lim)
    (hused : lim ≤ env.getPlan.workspacesUsed) :
    createProject env inp s =
      (.error (.badRequest "Failed to create workspace due to plan limit reached. Upgrade plan to add more workspaces."),
       s) := by
  have hq : quotaReached env.getPlan = true := by
    unfold quotaReached
    rw [hlim]
    exact decide_eq_true hused
  unfold createProject
  rw [ho]
  dsimp only
  rw [hp]
  dsimp only
  rw [hc, if_neg (by decide), hq, if_pos rfl]

/-- Witness for C2: limit 1, used 1 fails with the quota error and
writes nothing. -/
theorem c2_witness :
    createProject envC2 inpUser dbEmpty =
      (.error (.badRequest "Failed to create workspace due to plan limit reached. Upgrade plan to add more workspaces."),
       dbEmpty) :=
  c2_quota_exceeded_short_circuits envC2 inpUser dbEmpty
    { id := "org1" } { permission := 5, membershipId := "om1" } 1
    rfl rfl rfl rfl (by decide)

/-- C3: any failed createProject run, whichever step raised (the
pre-checks, any of the provisioning writes 1 to 8, the latest-key
integrity lookup or the actor branch), leaves the database state
exactly as it was: the transaction rolls back every row of the
attempt and the cache log is untouched. -/
theorem c3_transaction_rollback (env : Env) (inp : CreateInput) (s : DBState)
    (h : (createProject env inp s).1.isOk = false) :
    (createProject env inp s).2 = s :=
  createProject_error_state env inp s h

/-- Witness for C3: a run whose blind-index insert (step 4) is rejected
fails and leaves the empty database empty. -/
theorem c3_witness :
    (createProject envC3fail inpUser dbEmpty).1.isOk = false ∧
    (createProject envC3fail inpUser dbEmpty).2 = dbEmpty :=
  ⟨by decide, c3_transaction_rollback envC3fail inpUser dbEmpty (by decide)⟩

/-- Counterexample for C5 as stated: a supplied empty slug is not used
unchanged; the JS logical-or treats it as absent, so the run succeeds
with the generated slug acme-ab12 instead of the supplied empty one. -/
theorem c5_counterexample :
    inpEmptySlug.slug = some "" ∧
    (createProject envOk inpEmptySlug dbEmpty).1.isOk = true ∧
    (match (createProject envOk inpEmptySlug dbEmpty).1 with
      | .ok r => r.project.slug
      | .error _ => "") = "acme-ab12" ∧
    ("acme-ab12" : String) ≠ "" :=
  ⟨rfl, by decide, by decide, by decide⟩

/-- C5 amended: with no slug or an empty slug supplied, the created
slug is the slugified (normalized lowercase hyphenated) form of the
workspace name joined by a hyphen to the random 4-character nanoid
token; a nonempty supplied slug is used unchanged. -/
theorem c5_slug_generation_amended (env : Env) (inp : CreateInput) (s : DBState)
    (hok : (createProject env inp s).1.isOk = true) :
    ∃ res, (createProject env inp s).1 = .ok res ∧
      (inp.slug = none ∨ inp.slug = some "" →
        res.project.slug = slugify (inp.workspaceName ++ "-" ++ env.nanoid4)) ∧
      (∀ ps, inp.slug = some ps → ps ≠ "" → res.project.slug = ps) := by
  rcases createProject_run env inp s with ⟨e, he⟩ | ⟨o, op, s2, res, ho, hp, hc, hq, ht, hrun⟩
  · rw [he] at hok; exact absurd hok (by simp [Except.isOk, Except.toBool])
  · obtain ⟨g, hg, hres, hb⟩ := createProjectTx_ok_elim env inp o op s s2 res ht
    refine ⟨res, by rw [hrun], ?_, ?_⟩
    · intro hslug
      subst hres
      show projectSlugValue env inp = _
      unfold projectSlugValue
      rcases hslug with h0 | h0
      · rw [h0]
      · rw [h0]
        dsimp only
        rw [if_pos rfl]
    · intro ps hps hne
      subst hres
      show projectSlugValue env inp = ps
      unfold projectSlugValue
      rw [hps]
      dsimp only
      rw [if_neg hne]

/-- Witness for C5 amended: the run named Acme with no slug yields the
slugification of Acme-ab12. -/
theorem c5_witness :
    (match (createProject envOk inpUser dbEmpty).1 with
      | .ok r => r.project.slug
      | .error _ => "") = slugify ("Acme" ++ "-" ++ "ab12") := by
  obtain ⟨res, hres, hgen, _⟩ := c5_slug_generation_amended envOk inpUser dbEmpty (by decide)
  rw [hres]
  exact hgen (Or.inl rfl)

/-- Counterexample for C6 as stated: an identity whose own organization
role is a custom role (roleId present on its org membership row) still
receives the fixed Admin project role with no customRoleId, because the
code branches on the baseline Member role lookup, which returned no
custom role. -/
theorem c6_counterexample :
    envC6.identityOrgMembership = some iomCustom ∧
    iomCustom.roleId = some "crid1" ∧
    envC6.memberCustomRole = none ∧
    (createProject envC6 inpIdentity dbEmpty).1.isOk = true ∧
    ((createProject envC6 inpIdentity dbEmpty).2).identityProjectMembershipRoles =
      [{ projectMembershipId := "im1", role := .admin, customRoleId := none }] :=
  ⟨rfl, rfl, rfl, by decide, by decide⟩

/-- C6 amended: the persisted identity project-membership role is
Custom, with the custom role reference retained as customRoleId, when
the org-scoped lookup of the baseline Member role
(getOrgPermissionByRole of OrgMembershipRole.Member) returns a custom
role, and Admin with no customRoleId otherwise; the identity own
organization role is never consulted for this choice. -/
theorem c6_identity_role_amended (env : Env) (inp : CreateInput) (s : DBState)
    (hactor : inp.actor = .identity)
    (hok : (createProject env inp s).1.isOk = true) :
    ((createProject env inp s).2).identityProjectMembershipRoles =
      s.identityProjectMembershipRoles ++
        [{ projectMembershipId := env.identityMembershipId,
           role := if env.memberCustomRole.isSome then .custom else .admin,
           customRoleId := env.memberCustomRole }] := by
  rcases createProject_run env inp s with ⟨e, he⟩ | ⟨o, op, s2, res, ho, hp, hc, hq, ht, hrun⟩
  · rw [he] at hok; exact absurd hok (by simp [Except.isOk, Except.toBool])
  · obtain ⟨g, hg, hres, hb⟩ := createProjectTx_ok_elim env inp o op s s2 res ht
    obtain ⟨m, hm, hpriv, hs2⟩ :=
      txActorBranch_identity_shape env inp op g _ _ _ s2 hactor hb
    subst hs2
    rw [hrun]
    rfl

/-- Witness for C6 amended: the benign identity run persists the Admin
role with no custom reference, matching the Member-lookup result. -/
theorem c6_witness :
    ((createProject envOk inpIdentity dbEmpty).2).identityProjectMembershipRoles =
      [{ projectMembershipId := "im1",
         role := if envOk.memberCustomRole.isSome then .custom else .admin,
         customRoleId := envOk.memberCustomRole }] :=
  c6_identity_role_amended envOk inpIdentity dbEmpty rfl (by decide)

/-- Counterexample for C7 as stated: updateVersionLimit performs no
capability authorization check; a caller whose permission grants no
capability at all (edit settings, delete project and read secrets all
denied) but holds the Admin role succeeds and patches the limit. -/
theorem c7_counterexample :
    permNoCaps.can .edit .settings = false ∧
    permNoCaps.can .delete .project = false ∧
    permNoCaps.can .read .secrets = false ∧
    permNoCaps.hasRole .admin = true ∧
    (updateVersionLimit opEnvNoCaps uvlInp dbWithProject).1 =
      .ok { projAcme with pitVersionLimit := 5 } ∧
    ((updateVersionLimit opEnvNoCaps uvlInp dbWithProject).2).projects =
      [{ projAcme with pitVersionLimit := 5 }] :=
  ⟨rfl, rfl, rfl, by decide, by decide, by decide⟩

/-- C7 amended: updateVersionLimit resolves the project permission and
then applies only the explicit hasRole Admin gate, with no separate
capability check: every caller without the Admin role fails with the
admins-only BadRequest error and the retention limit is not patched,
and every caller with the Admin role patches the limit. -/
theorem c7_admin_gate_amended (env : ProjectOpEnv) (inp : UpdateVersionLimitInput)
    (s : DBState) (project : Project) (perm : ProjPerm)
    (hf : findProjectBySlug inp.workspaceSlug inp.actorOrgId s = some project)
    (hp : env.getProjectPermission = .ok perm) :
    (perm.hasRole .admin = false →
      updateVersionLimit env inp s =
        (.error (.badRequest "Only admins are allowed to take this action"), s)) ∧
    (perm.hasRole .admin = true →
      updateVersionLimit env inp s =
        (.ok { project with pitVersionLimit := inp.pitVersionLimit },
         { s with projects := s.projects.map (fun p =>
             if p.id == project.id then { p with pitVersionLimit := inp.pitVersionLimit }
             else p) })) := by
  unfold updateVersionLimit
  rw [hf]
  dsimp only
  rw [hp]
  dsimp only
  constructor
  · intro hr; rw [hr, if_pos rfl]
  · intro hr; rw [hr, if_neg (by decide)]

/-- Witness for C7 amended: a fully capable caller without the Admin
role fails and leaves the project table unchanged. -/
theorem c7_witness :
    updateVersionLimit opEnvNonAdmin uvlInp dbWithProject =
      (.error (.badRequest "Only admins are allowed to take this action"), dbWithProject) :=
  (c7_admin_gate_amended opEnvNonAdmin uvlInp dbWithProject projAcme permNonAdmin
    (by decide) rfl).1 rfl

/-- Counterexample for C8 as stated: the invalidated key of a
successful creation for org1 is infisical-cloud-plan-org1; no entry
named plan-usage-org1 is ever written to the invalidation log. -/
theorem c8_counterexample :
    (createProject envOk inpUser dbEmpty).1.isOk = true ∧
    ((createProject envOk inpUser dbEmpty).2).cacheDeletes = ["infisical-cloud-plan-org1"] ∧
    "plan-usage-org1" ∉ ((createProject envOk inpUser dbEmpty).2).cacheDeletes :=
  ⟨by decide, by decide, by decide⟩

/-- C8 amended: the plan cache entry, whose key is the template literal
infisical-cloud-plan- followed by the actor org id, is deleted exactly
once after the transaction of a successful createProject and exactly
once after the transaction of a successful deleteProject, and not at
all when either operation fails. -/
theorem c8_cache_invalidation_amended (cenv : Env) (cinp : CreateInput) (cs : DBState)
    (denv : ProjectOpEnv) (dinp : DeleteInput) (ds : DBState) :
    ((createProject cenv cinp cs).2).cacheDeletes = cs.cacheDeletes ++
      (if (createProject cenv cinp cs).1.isOk then [cachePlanKey cinp.actorOrgId] else []) ∧
    ((deleteProject denv dinp ds).2).cacheDeletes = ds.cacheDeletes ++
      (if (deleteProject denv dinp ds).1.isOk then [cachePlanKey dinp.actorOrgId] else []) :=
  ⟨createProject_cache cenv cinp cs, deleteProject_cache denv dinp ds⟩

/-- Filtering an append whose left part keeps nothing. -/
theorem filter_append_fresh {α : Type} (l r : List α) (p : α → Bool)
    (hfresh : ∀ a ∈ l, p a = false) : (l ++ r).filter p = r.filter p := by
  rw [List.filter_append,
    List.filter_eq_nil_iff.mpr (fun a ha => by simp [hfresh a ha]), List.nil_append]

/-- The actor branch never touches the environment or folder tables. -/
theorem txActorBranch_preserves (env : Env) (inp : CreateInput) (orgPerm : OrgPerm)
    (g : GhostUser) (project : Project) (latestKey : ProjectKeyRow) (s s2 : DBState)
    (h : txActorBranch env inp orgPerm g project latestKey s = .ok s2) :
    s2.projectEnvs = s.projectEnvs ∧ s2.folders = s.folders := by
  cases hactor : inp.actor with
  | user =>
    obtain ⟨u, hu, hs2⟩ := txActorBranch_user_shape env inp orgPerm g _ _ _ s2 hactor h
    subst hs2; exact ⟨rfl, rfl⟩
  | identity =>
    obtain ⟨m, hm, hpriv, hs2⟩ := txActorBranch_identity_shape env inp orgPerm g _ _ _ s2 hactor h
    subst hs2; exact ⟨rfl, rfl⟩
  | service =>
    have hs2 := txActorBranch_service_shape env inp orgPerm g _ _ _ s2 hactor h
    subst hs2; exact ⟨rfl, rfl⟩

/-- C4: every successful createProject creates exactly one custodian
account (one new ghost user id), exactly one bot row for the new
project, and exactly one project-key row of the new project whose
receiver is the custodian; when the initiating actor is a human user,
exactly two project-key rows of the new project exist in total. -/
theorem c4_key_custody_cardinality (env : Env) (inp : CreateInput) (s : DBState)
    (g : GhostUser)
    (hok : (createProject env inp s).1.isOk = true)
    (hg : env.addGhostUser = .ok g)
    (hfreshKeys : ∀ k ∈ s.projectKeys, k.projectId ≠ env.newProjectId)
    (hfreshBots : ∀ b ∈ s.projectBots, b.projectId ≠ env.newProjectId)
    (huser : ∀ u, env.findUserEncKey = some u → u.id ≠ g.userId) :
    ((createProject env inp s).2).ghostUsers = s.ghostUsers ++ [g.userId] ∧
    (((createProject env inp s).2).projectBots.filter
      (fun b => b.projectId == env.newProjectId)).length = 1 ∧
    (((createProject env inp s).2).projectKeys.filter
      (fun k => k.projectId == env.newProjectId && k.receiverId == g.userId)).length = 1 ∧
    (inp.actor = .user →
      (((createProject env inp s).2).projectKeys.filter
        (fun k => k.projectId == env.newProjectId)).length = 2) := by
  rcases createProject_run env inp s with ⟨e, he⟩ | ⟨o, op, s2, res, ho, hp, hc, hq, ht, hrun⟩
  · rw [he] at hok; exact absurd hok (by simp [Except.isOk, Except.toBool])
  obtain ⟨g2, hg2, hres, hb⟩ := createProjectTx_ok_elim env inp o op s s2 res ht
  rw [hg] at hg2
  injection hg2 with hg2
  subst hg2
  have hks : List.filter
      (fun k => k.projectId == env.newProjectId && k.receiverId == g.userId) s.projectKeys = [] :=
    List.filter_eq_nil_iff.mpr (fun k hk => by
      simp [beq_eq_false_iff_ne.mpr (hfreshKeys k hk)])
  have hks2 : List.filter (fun k => k.projectId == env.newProjectId) s.projectKeys = [] :=
    List.filter_eq_nil_iff.mpr (fun k hk => by
      simp [beq_eq_false_iff_ne.mpr (hfreshKeys k hk)])
  cases hactor : inp.actor with
  | user =>
    obtain ⟨u, hu, hs2⟩ := txActorBranch_user_shape env inp op g _ _ _ s2 hactor hb
    subst hs2
    have hune : u.id ≠ g.userId := huser u hu
    rw [hrun]
    refine ⟨rfl, ?_, ?_, fun _ => ?_⟩
    · dsimp only [userBranchState, coreFinalState]
      rw [filter_append_fresh _ _ _ (fun b hbm => beq_eq_false_iff_ne.mpr (hfreshBots b hbm))]
      simp [botRowOf, coreProject]
    · dsimp only [userBranchState, coreFinalState, userAdminAssignment]
      simp [List.filter_append, hks, ghostKeyRowOf, coreProject,
            beq_eq_false_iff_ne.mpr hune]
    · dsimp only [userBranchState, coreFinalState, userAdminAssignment]
      simp [List.filter_append, hks2, ghostKeyRowOf, coreProject]
  | identity =>
    obtain ⟨m, hm, hpriv, hs2⟩ := txActorBranch_identity_shape env inp op g _ _ _ s2 hactor hb
    subst hs2
    rw [hrun]
    refine ⟨rfl, ?_, ?_, fun hu' => ActorType.noConfusion hu'⟩
    · dsimp only [identityBranchState, coreFinalState]
      rw [filter_append_fresh _ _ _ (fun b hbm => beq_eq_false_iff_ne.mpr (hfreshBots b hbm))]
      simp [botRowOf, coreProject]
    · dsimp only [identityBranchState, coreFinalState]
      simp [List.filter_append, hks, ghostKeyRowOf, coreProject]
  | service =>
    have hs2 := txActorBranch_service_shape env inp op g _ _ _ s2 hactor hb
    subst hs2
    rw [hrun]
    refine ⟨rfl, ?_, ?_, fun hu' => ActorType.noConfusion hu'⟩
    · dsimp only [coreFinalState]
      rw [filter_append_fresh _ _ _ (fun b hbm => beq_eq_false_iff_ne.mpr (hfreshBots b hbm))]
      simp [botRowOf, coreProject]
    · dsimp only [coreFinalState]
      simp [List.filter_append, hks, ghostKeyRowOf, coreProject]

/-- Witness for C4: the benign human-actor run on the empty database
shows the exact custodian, bot and key cardinalities. -/
theorem c4_witness :
    ((createProject envOk inpUser dbEmpty).2).ghostUsers = [] ++ ["ghost1"] ∧
    (((createProject envOk inpUser dbEmpty).2).projectBots.filter
      (fun b => b.projectId == envOk.newProjectId)).length = 1 ∧
    (((createProject envOk inpUser dbEmpty).2).projectKeys.filter
      (fun k => k.projectId == envOk.newProjectId && k.receiverId == "ghost1")).length = 1 ∧
    (inpUser.actor = .user →
      (((createProject envOk inpUser dbEmpty).2).projectKeys.filter
        (fun k => k.projectId == envOk.newProjectId)).length = 2) :=
  c4_key_custody_cardinality envOk inpUser dbEmpty
    { userId := "ghost1", publicKey := "gpub", plainPrivateKey := "gpriv" }
    (by decide) rfl (by simp [dbEmpty]) (by simp [dbEmpty]) (by intro u hu; cases hu; decide)

/-- C9: for every human-actor createProject, an absent public-key row
for the actor makes the whole call fail with the state unchanged (full
rollback); on success the actor receives a project membership with the
Admin role and a project-key row whose sender is the custodian. -/
theorem c9_human_actor_path (env : Env) (inp : CreateInput) (s : DBState)
    (hactor : inp.actor = .user) :
    (env.findUserEncKey = none →
      (createProject env inp s).1.isOk = false ∧ (createProject env inp s).2 = s) ∧
    ((createProject env inp s).1.isOk = true →
      ∃ g u, env.addGhostUser = .ok g ∧ env.findUserEncKey = some u ∧
        ({ id := env.userMembershipId, userId := u.id, projectId := env.newProjectId } :
            ProjectMembership) ∈ ((createProject env inp s).2).projectMemberships ∧
        ({ projectMembershipId := env.userMembershipId, role := .admin } :
            ProjectUserMembershipRole) ∈
          ((createProject env inp s).2).projectUserMembershipRoles ∧
        ∃ k ∈ ((createProject env inp s).2).projectKeys,
          k.projectId = env.newProjectId ∧ k.receiverId = u.id ∧ k.senderId = g.userId) := by
  constructor
  · intro hnone
    rcases createProject_run env inp s with ⟨e, he⟩ | ⟨o, op, s2, res, ho, hp, hc, hq, ht, hrun⟩
    · rw [he]; exact ⟨rfl, rfl⟩
    · obtain ⟨g, hg, hres, hb⟩ := createProjectTx_ok_elim env inp o op s s2 res ht
      obtain ⟨u, hu, _⟩ := txActorBranch_user_shape env inp op g _ _ _ s2 hactor hb
      rw [hnone] at hu
      exact Option.noConfusion hu
  · intro hok
    rcases createProject_run env inp s with ⟨e, he⟩ | ⟨o, op, s2, res, ho, hp, hc, hq, ht, hrun⟩
    · rw [he] at hok; exact absurd hok (by simp [Except.isOk, Except.toBool])
    · obtain ⟨g, hg, hres, hb⟩ := createProjectTx_ok_elim env inp o op s s2 res ht
      obtain ⟨u, hu, hs2⟩ := txActorBranch_user_shape env inp op g _ _ _ s2 hactor hb
      subst hs2
      rw [hrun]
      refine ⟨g, u, hg, hu, ?_, ?_, ?_⟩
      · dsimp only [userBranchState, coreFinalState]
        simp [coreProject]
      · dsimp only [userBranchState, coreFinalState, userAdminAssignment]
        simp
      · refine ⟨userKeyRowOf env op g u (coreProject env inp o).id
          (ghostKeyRowOf env g (coreProject env inp o).id), ?_, rfl, rfl, rfl⟩
        dsimp only [userBranchState, coreFinalState, userKeyRowOf]
        simp

/-- Witness for C9: the run with no registered public key fails and
leaves the empty database empty (the success half of the statement is
instantiated at the same environment). -/
theorem c9_witness :
    (envC9none.findUserEncKey = none →
      (createProject envC9none inpUser dbEmpty).1.isOk = false ∧
      (createProject envC9none inpUser dbEmpty).2 = dbEmpty) ∧
    ((createProject envC9none inpUser dbEmpty).1.isOk = true →
      ∃ g u, envC9none.addGhostUser = .ok g ∧ envC9none.findUserEncKey = some u ∧
        ({ id := envC9none.userMembershipId, userId := u.id,
           projectId := envC9none.newProjectId } : ProjectMembership) ∈
          ((createProject envC9none inpUser dbEmpty).2).projectMemberships ∧
        ({ projectMembershipId := envC9none.userMembershipId, role := .admin } :
            ProjectUserMembershipRole) ∈
          ((createProject envC9none inpUser dbEmpty).2).projectUserMembershipRoles ∧
        ∃ k ∈ ((createProject envC9none inpUser dbEmpty).2).projectKeys,
          k.projectId = envC9none.newProjectId ∧ k.receiverId = u.id ∧
          k.senderId = g.userId) :=
  c9_human_actor_path envC9none inpUser dbEmpty rfl

/-- C10: every project created by a successful createProject has schema
version V2, point-in-time retention limit 10 and identifier equal to
the storage-assigned project id; the environments of the new project
are exactly Development dev, Staging staging and Production prod at
positions 1, 2 and 3; and the folder table grows by exactly one root
folder per created environment.  None of these values depends on the
request input. -/
theorem c10_fixed_defaults (env : Env) (inp : CreateInput) (s : DBState)
    (hok : (createProject env inp s).1.isOk = true)
    (hfreshEnvs : ∀ e ∈ s.projectEnvs, e.projectId ≠ env.newProjectId) :
    ∃ res, (createProject env inp s).1 = .ok res ∧
      res.project.version = .v2 ∧
      res.project.pitVersionLimit = 10 ∧
      res.project.id = env.newProjectId ∧
      (((createProject env inp s).2).projectEnvs.filter
        (fun e => e.projectId == env.newProjectId)).map
          (fun e => (e.name, e.slug, e.position)) =
        [("Development", "dev", 1), ("Staging", "staging", 2), ("Production", "prod", 3)] ∧
      ((createProject env inp s).2).folders =
        s.folders ++ res.environments.map (fun e =>
          { name := ROOT_FOLDER_NAME, envId := e.id, version := 1 }) := by
  rcases createProject_run env inp s with ⟨e, he⟩ | ⟨o, op, s2, res, ho, hp, hc, hq, ht, hrun⟩
  · rw [he] at hok; exact absurd hok (by simp [Except.isOk, Except.toBool])
  obtain ⟨g, hg, hres, hb⟩ := createProjectTx_ok_elim env inp o op s s2 res ht
  obtain ⟨hE, hF⟩ := txActorBranch_preserves env inp op g _ _ _ s2 hb
  refine ⟨res, by rw [hrun], by rw [hres]; rfl, by rw [hres]; rfl, by rw [hres]; rfl, ?_, ?_⟩
  · rw [hrun]
    show (List.filter _ s2.projectEnvs).map _ = _
    rw [hE]
    show (List.filter _ (s.projectEnvs ++ defaultEnvRows env (coreProject env inp o).id)).map _ = _
    rw [filter_append_fresh _ _ _ (fun a ha => beq_eq_false_iff_ne.mpr (hfreshEnvs a ha))]
    simp [defaultEnvRows, DEFAULT_PROJECT_ENVS, coreProject, List.enum, List.enumFrom]
  · rw [hrun]
    show s2.folders = _
    rw [hF, hres]
    rfl

/-- Witness for C10: the benign human-actor run on the empty database
produces the fixed defaults. -/
theorem c10_witness :
    ∃ res, (createProject envOk inpUser dbEmpty).1 = .ok res ∧
      res.project.version = .v2 ∧
      res.project.pitVersionLimit = 10 ∧
      res.project.id = envOk.newProjectId ∧
      (((createProject envOk inpUser dbEmpty).2).projectEnvs.filter
        (fun e => e.projectId == envOk.newProjectId)).map
          (fun e => (e.name, e.slug, e.position)) =
        [("Development", "dev", 1), ("Staging", "staging", 2), ("Production", "prod", 3)] ∧
      ((createProject envOk inpUser dbEmpty).2).folders =
        [] ++ res.environments.map (fun e =>
          { name := ROOT_FOLDER_NAME, envId := e.id, version := 1 }) :=
  c10_fixed_defaults envOk inpUser dbEmpty (by decide) (by simp [dbEmpty])

end Infisical
